import Mathlib

/-!
Verification of the Supabase data-access layer of the job-application
platform (file `supabaseClient.ts` and the job-details page handler).

Modelling conventions:
* The Supabase store (tables `jobs`, `job_applications`, `user_profiles`,
  `job_pdfs`, plus the two blob buckets) is embedded as an explicit
  `Store` value threaded through every operation.
* Store reads and writes are modelled as succeeding; the failures kept in
  the model are exactly the deterministic ones of the client code:
  missing session, failed admin check, file validation, the uniqueness
  constraint on `(user_id, job_id)`, and row-not-found on `.single()` /
  `.maybeSingle()` lookups.
* The session (`supabase.auth.getSession`), the `is_admin` RPC and the
  clock (`Date.now()`) are ambient inputs, collected in `Env`.
* Signed-URL generation is external to the repository; it is modelled as
  a deterministic function of bucket and object path.
* `order by created_at` clauses are not modelled: every claim below is
  about membership of result lists, never about their order.
-/

namespace JobPlatform

/-- Row of the `jobs` table. -/
structure Job where
  id : Nat
  title : String
  detailed_description : String
  criteria : String
  status : String
  applications_count : Nat
  company_name : String
  salary_range : Option String
  created_at : Nat
  updated_at : Nat
deriving Repr, DecidableEq

/-- Row of the `job_applications` table. -/
structure Application where
  user_id : String
  job_id : Nat
  applied_at : Nat
  status : String
  total_score : Int
  acceptance : String
deriving Repr, DecidableEq

/-- Row of the `user_profiles` table. -/
structure UserProfile where
  id : String
  resume_url : Option String
  role : String
  created_at : Nat
  updated_at : Nat
deriving Repr, DecidableEq

/-- Row of the `job_pdfs` table. -/
structure JobPdf where
  id : Nat
  job_id : Nat
  file_name : String
  job_pdf_url : String
  file_size : Nat
  created_at : Nat
  updated_at : Nat
deriving Repr, DecidableEq

/-- A blob held in one of the storage buckets (`resumes` or `job-pdfs`).
Both buckets key their objects as `{folder}/{name}` (`.list(folder)`
enumerates a folder), so the key is kept as its two components. -/
structure StorageObject where
  bucket : String
  folder : String
  name : String
deriving Repr, DecidableEq

/-- The external Supabase store: relational tables plus blob storage. -/
structure Store where
  jobs : List Job
  job_applications : List Application
  user_profiles : List UserProfile
  job_pdfs : List JobPdf
  storage : List StorageObject
deriving Repr, DecidableEq

/-- Ambient inputs of a call: the session user (from
`supabase.auth.getSession`), the value the server-side `is_admin` RPC
would return, and the current clock value. -/
structure Env where
  currentUser : Option String
  isAdminRpc : Bool
  now : Nat
deriving Repr, DecidableEq

/-- A browser `File` object: name, MIME type, size in bytes. -/
structure DocFile where
  name : String
  type : String
  size : Nat
deriving Repr, DecidableEq

/-- `getCurrentUser`: returns the session user or null. -/
def getCurrentUser (env : Env) : Option String :=
  env.currentUser

/-- `checkIfUserIsAdmin`: false with no session, otherwise the result of
the `is_admin` RPC. -/
def checkIfUserIsAdmin (env : Env) : Bool :=
  match env.currentUser with
  | none => false
  | some _ => env.isAdminRpc

/-- `isValidDocumentType`: MIME allow-list PDF / DOC / DOCX. -/
def isValidDocumentType (file : DocFile) : Bool :=
  file.type == "application/pdf" ||
  file.type == "application/msword" ||
  file.type == "application/vnd.openxmlformats-officedocument.wordprocessingml.document"

/-- Characters after the last dot (the whole name when it has no dot,
as with `split`/`pop` in the source); the accumulator is reset at each
dot. -/
def extAfterLastDot : List Char → List Char → List Char
  | [], acc => acc
  | c :: rest, acc =>
    if c = '.' then extAfterLastDot rest []
    else extAfterLastDot rest (acc ++ [c])

/-- `getFileExtension`: `fileName.split(".").pop()` lower-cased — the
text after the last dot, or the whole name when it has no dot. -/
def getFileExtension (fileName : String) : String :=
  String.mk ((extAfterLastDot fileName.toList []).map Char.toLower)

/-- Signed-URL generation (`createSignedUrl`) is performed by the
storage service, outside this repository; modelled as a deterministic
injective function of bucket and path. -/
def signedUrl (bucket path : String) : String :=
  "https://storage.example/" ++ bucket ++ "/" ++ path

/-- `updateJobApplicationCount`: recount the `job_applications` rows of
the job and write the count (plus `updated_at`) into the `jobs` row. -/
def updateJobApplicationCount (s : Store) (env : Env) (jobId : Nat) : Store :=
  let count := (s.job_applications.filter (fun a => a.job_id == jobId)).length
  { s with jobs := s.jobs.map (fun j =>
      if j.id == jobId then
        { j with applications_count := count, updated_at := env.now }
      else j) }

/-- `syncAllJobApplicationCounts`: run `updateJobApplicationCount` for
every job id present in `jobs`. -/
def syncAllJobApplicationCounts (s : Store) (env : Env) : Store :=
  (s.jobs.map (fun j => j.id)).foldl (fun acc jid => updateJobApplicationCount acc env jid) s

/-- `getResumeUrl`: resolve the target user (explicit argument when
truthy, else the session user), then read `resume_url` from the profile
row via `.maybeSingle()`; any falsy outcome collapses to null. -/
def getResumeUrl (s : Store) (env : Env) (userId? : Option String) : Option String :=
  let targetId? : Option String :=
    match userId? with
    | some u => if u == "" then env.currentUser else some u
    | none => env.currentUser
  match targetId? with
  | none => none
  | some tid =>
    if tid == "" then none
    else
      match s.user_profiles.filter (fun p => p.id == tid) with
      | [p] =>
        (match p.resume_url with
         | none => none
         | some u => if u == "" then none else some u)
      | _ => none

/-- `hasUserApplied`: false with no session; otherwise `.maybeSingle()`
over the rows for `(user, job)` — true on exactly one row, false on
zero rows, and false on the (error) case of several rows. -/
def hasUserApplied (s : Store) (env : Env) (jobId : Nat) : Bool :=
  match env.currentUser with
  | none => false
  | some uid =>
    match s.job_applications.filter (fun a => a.user_id == uid && a.job_id == jobId) with
    | [] => false
    | [_] => true
    | _ => false

/-- The application row `applyToJob` inserts: `status = pending`,
`acceptance` defaulted to `pending`, scores defaulted to 0. -/
def mkApplication (uid : String) (jobId : Nat) (now : Nat) : Application :=
  { user_id := uid
    job_id := jobId
    applied_at := now
    status := "pending"
    total_score := 0
    acceptance := "pending" }

/-- Store-level insert into `job_applications`, enforcing the uniqueness
constraint on `(user_id, job_id)`; a violation is Postgres error code
23505. -/
def insertApplication (s : Store) (app : Application) : Except String Store :=
  if s.job_applications.any (fun a => a.user_id == app.user_id && a.job_id == app.job_id) then
    Except.error "23505"
  else
    Except.ok { s with job_applications := s.job_applications ++ [app] }

/-- `applyToJob`: session check, resume check, duplicate pre-check,
insert (mapping a 23505 constraint violation to the duplicate message),
then the non-critical count resync.  Every error leaves the store as it
was at the point of failure. -/
def applyToJob (s : Store) (env : Env) (jobId : Nat) :
    Except String Application × Store :=
  match env.currentUser with
  | none => (Except.error "You must be logged in to apply for jobs", s)
  | some uid =>
    match getResumeUrl s env (some uid) with
    | none => (Except.error "Please upload your resume before applying to jobs", s)
    | some _ =>
      if hasUserApplied s env jobId then
        (Except.error "You have already applied to this job", s)
      else
        let app := mkApplication uid jobId env.now
        match insertApplication s app with
        | Except.error _ =>
          (Except.error "You have already applied to this job", s)
        | Except.ok s1 =>
          (Except.ok app, updateJobApplicationCount s1 env jobId)

/-- Number of `job_applications` rows for a given `(user, job)` pair. -/
def countApps (s : Store) (uid : String) (jobId : Nat) : Nat :=
  (s.job_applications.filter (fun a => a.user_id == uid && a.job_id == jobId)).length

/-- `getApplicationStatus`: `.single()` over the rows for `(user, job)`;
zero rows is the PGRST116 case returning null, several rows is an error
that the surrounding catch also turns into null. -/
def getApplicationStatus (s : Store) (userId : String) (jobId : Nat) : Option Application :=
  match s.job_applications.filter (fun a => a.user_id == userId && a.job_id == jobId) with
  | [a] => some a
  | _ => none

/-- The `while (Date.now() - startTime < maxWaitTime)` loop of
`waitForScoreProcessing`.  `reads k` is the row the k-th poll returns
(the poll at `5000 * k` ms after start; a read error is caught in the
source and behaves like a null row, so both are `none`).  The `fuel`
argument only makes the recursion structural: the caller passes
`maxWaitTime`, and reaching iteration k requires `5000 * k < maxWaitTime`,
hence `k < maxWaitTime`, so the guard always fails before the fuel does
and a fuel of zero coincides with the timeout exit. -/
def waitLoop (reads : Nat → Option Application) (maxWaitTime : Nat) :
    Nat → Nat → Option Application
  | _, 0 => none
  | k, fuel + 1 =>
    if 5000 * k < maxWaitTime then
      match reads k with
      | some app =>
        if 0 < app.total_score then some app
        else waitLoop reads maxWaitTime (k + 1) fuel
      | none => waitLoop reads maxWaitTime (k + 1) fuel
    else none

/-- `waitForScoreProcessing` over an abstract sequence of poll results;
the default `maxWaitTime` at the call sites is 300000 ms. -/
def waitForScoreProcessing (reads : Nat → Option Application) (maxWaitTime : Nat) :
    Option Application :=
  waitLoop reads maxWaitTime 0 maxWaitTime

/-- `waitForScoreProcessing` polling an evolving store (`stores k` is the
store contents at the k-th poll) through `getApplicationStatus`. -/
def waitForScoreProcessingOn (stores : Nat → Store) (userId : String) (jobId : Nat)
    (maxWaitTime : Nat) : Option Application :=
  waitForScoreProcessing (fun k => getApplicationStatus (stores k) userId jobId) maxWaitTime

/-- Input shape of `createNewJob` / `createNewJobWithPdf`. -/
structure JobData where
  title : String
  detailed_description : String
  criteria : String
  company_name : String
  salary_range : Option String
deriving Repr, DecidableEq

/-- Fresh id for an inserted `jobs` row (the store autoincrement). -/
def freshJobId (s : Store) : Nat :=
  (s.jobs.map (fun j => j.id)).foldl max 0 + 1

/-- Fresh id for an inserted `job_pdfs` row (the store autoincrement). -/
def freshPdfId (s : Store) : Nat :=
  (s.job_pdfs.map (fun p => p.id)).foldl max 0 + 1

/-- `updateJobStatus`: writes `status` and `updated_at` on the `jobs`
row, then runs the count resync.  The source performs no session or
role check here. -/
def updateJobStatus (s : Store) (env : Env) (jobId : Nat) (newStatus : String) :
    Except String (List Job) × Store :=
  let s1 := { s with jobs := s.jobs.map (fun j =>
      if j.id == jobId then { j with status := newStatus, updated_at := env.now } else j) }
  let updated := s1.jobs.filter (fun j => j.id == jobId)
  (Except.ok updated, updateJobApplicationCount s1 env jobId)

/-- `deleteJob`: deletes the `job_applications` rows of the job, then
the `jobs` row.  The source performs no session or role check here. -/
def deleteJob (s : Store) (_env : Env) (jobId : Nat) : Except String (List Job) × Store :=
  let s1 := { s with job_applications :=
      s.job_applications.filter (fun a => !(a.job_id == jobId)) }
  let deleted := s1.jobs.filter (fun j => j.id == jobId)
  let s2 := { s1 with jobs := s1.jobs.filter (fun j => !(j.id == jobId)) }
  (Except.ok deleted, s2)

/-- Replace every character outside `[a-zA-Z0-9.-]` by an underscore. -/
def sanitizeFileName (name : String) : String :=
  String.mk (name.toList.map (fun c => if c.isAlphanum || c == '.' || c == '-' then c else '_'))

/-- Folder part of the storage key of a job document: `job_{jobId}`. -/
def jobPdfFolder (jobId : Nat) : String :=
  "job_" ++ toString jobId

/-- Name part of the storage key of a job document:
`job_document_{timestamp}_{sanitized_name}`. -/
def jobPdfBlobName (env : Env) (file : DocFile) : String :=
  "job_document_" ++ toString env.now ++ "_" ++ sanitizeFileName file.name

/-- Successful result of `uploadJobPdf`. -/
structure PdfUploadResult where
  url : String
  fileName : String
  pdfRecord : JobPdf
deriving Repr, DecidableEq

/-- `uploadJobPdf`: session check, admin check, MIME allow-list, 10MB
cap, then blob upload, signed URL and `job_pdfs` insert. -/
def uploadJobPdf (s : Store) (env : Env) (file : DocFile) (jobId : Nat) :
    Except String PdfUploadResult × Store :=
  match env.currentUser with
  | none => (Except.error "You must be logged in to upload job documents", s)
  | some _ =>
    if !(checkIfUserIsAdmin env) then
      (Except.error "Only admins can upload job documents", s)
    else if !(isValidDocumentType file) then
      (Except.error ("Invalid file type: ." ++ getFileExtension file.name ++
        ". Only PDF, DOC, and DOCX files are allowed"), s)
    else if 10 * 1024 * 1024 < file.size then
      (Except.error "File size must be less than 10MB", s)
    else
      let folder := jobPdfFolder jobId
      let name := jobPdfBlobName env file
      let s1 := { s with storage := s.storage ++ [⟨"job-pdfs", folder, name⟩] }
      let url := signedUrl "job-pdfs" (folder ++ "/" ++ name)
      let pdfRow : JobPdf :=
        { id := freshPdfId s1
          job_id := jobId
          file_name := file.name
          job_pdf_url := url
          file_size := file.size
          created_at := env.now
          updated_at := env.now }
      let s2 := { s1 with job_pdfs := s1.job_pdfs ++ [pdfRow] }
      (Except.ok { url := url, fileName := file.name, pdfRecord := pdfRow }, s2)

/-- Step 1 of `createNewJobWithPdf`: insert the `jobs` row with
`status = processing` and `applications_count = 0`. -/
def insertProcessingJob (s : Store) (env : Env) (jd : JobData) : Job × Store :=
  let newJob : Job :=
    { id := freshJobId s
      title := jd.title
      detailed_description := jd.detailed_description
      criteria := jd.criteria
      status := "processing"
      applications_count := 0
      company_name := jd.company_name
      salary_range := jd.salary_range
      created_at := env.now
      updated_at := env.now }
  (newJob, { s with jobs := s.jobs ++ [newJob] })

/-- The status update that ends `createNewJobWithPdf` on the no-document
and successful-upload paths. -/
def setJobStatusInactive (s : Store) (env : Env) (jobId : Nat) : Store :=
  { s with jobs := s.jobs.map (fun j =>
      if j.id == jobId then { j with status := "inactive", updated_at := env.now } else j) }

/-- The update that ends `createNewJobWithPdf` when the document upload
threw: status becomes `inactive` and the error message replaces
`detailed_description`. -/
def recordUploadFailure (s : Store) (env : Env) (jobId : Nat) (msg : String) : Store :=
  { s with jobs := s.jobs.map (fun j =>
      if j.id == jobId then
        { j with status := "inactive"
                 detailed_description := "Error uploading document: " ++ msg
                 updated_at := env.now }
      else j) }

/-- Return shape of `createNewJobWithPdf` (`{job, pdf, success}`); on the
upload-failure path the in-memory `job` record keeps `processing` — only
the store row is updated, as in the source. -/
structure CreateJobResult where
  job : Job
  pdf : Option PdfUploadResult
  success : Bool
deriving Repr, DecidableEq

/-- `createNewJobWithPdf`: insert with `status = processing`, optionally
upload the document, then set the row to `inactive` on every path, the
upload error message being recorded in `detailed_description` when the
upload threw. -/
def createNewJobWithPdf (s : Store) (env : Env) (jd : JobData)
    (documentFile? : Option DocFile) : CreateJobResult × Store :=
  let newJob := (insertProcessingJob s env jd).1
  let s1 := (insertProcessingJob s env jd).2
  match documentFile? with
  | some file =>
    match uploadJobPdf s1 env file newJob.id with
    | (Except.ok docResult, s2) =>
      ({ job := { newJob with status := "inactive" }, pdf := some docResult, success := true },
        setJobStatusInactive s2 env newJob.id)
    | (Except.error msg, s2) =>
      ({ job := newJob, pdf := none, success := true },
        recordUploadFailure s2 env newJob.id msg)
  | none =>
    ({ job := { newJob with status := "inactive" }, pdf := none, success := true },
      setJobStatusInactive s1 env newJob.id)

/-- `getJobPdfs`: the `job_pdfs` rows of a job. -/
def getJobPdfs (s : Store) (jobId : Nat) : List JobPdf :=
  s.job_pdfs.filter (fun p => p.job_id == jobId)

/-- The storage key `deleteJobPdf` extracts from a document URL: the
text after the first `/job-pdfs/`, query string stripped; null when the
URL does not contain `/job-pdfs/`. -/
def urlStoragePath (url : String) : Option String :=
  match url.splitOn "/job-pdfs/" with
  | [] => none
  | [_] => none
  | _ :: rest =>
    let afterBucket := String.intercalate "/job-pdfs/" rest
    match afterBucket.splitOn "?" with
    | [] => some afterBucket
    | q :: _ => some q

/-- `deleteJobPdf`: session check, admin check, `.single()` fetch of the
row, blob removal when the URL carries a `/job-pdfs/` key, row delete. -/
def deleteJobPdf (s : Store) (env : Env) (pdfId : Nat) : Except String Unit × Store :=
  match env.currentUser with
  | none => (Except.error "You must be logged in to delete job PDFs", s)
  | some _ =>
    if !(checkIfUserIsAdmin env) then
      (Except.error "Only admins can delete job PDFs", s)
    else
      match s.job_pdfs.filter (fun p => p.id == pdfId) with
      | [pdfInfo] =>
        let s1 :=
          match urlStoragePath pdfInfo.job_pdf_url with
          | some path =>
            { s with storage := s.storage.filter (fun o =>
                !(o.bucket == "job-pdfs" && (o.folder ++ "/" ++ o.name) == path)) }
          | none => s
        let s2 := { s1 with job_pdfs := s1.job_pdfs.filter (fun p => !(p.id == pdfId)) }
        (Except.ok (), s2)
      | _ => (Except.error "Failed to fetch PDF info: no single row", s)

/-- The `for (const pdf of jobPdfs) await deleteJobPdf(pdf.id)` loop of
`deleteJobWithPdfs`; a throw from one iteration aborts the rest. -/
def deletePdfList (env : Env) : Store → List Nat → Except String Unit × Store
  | s, [] => (Except.ok (), s)
  | s, pid :: rest =>
    match deleteJobPdf s env pid with
    | (Except.error e, s1) => (Except.error e, s1)
    | (Except.ok _, s1) => deletePdfList env s1 rest

/-- `deleteJobWithPdfs`: delete every document via `deleteJobPdf`, then
the `job_applications` rows, then the `jobs` row.  Authentication and
admin checks happen only inside the per-document `deleteJobPdf` calls. -/
def deleteJobWithPdfs (s : Store) (env : Env) (jobId : Nat) :
    Except String (List Job) × Store :=
  let pdfs := getJobPdfs s jobId
  match deletePdfList env s (pdfs.map (fun p => p.id)) with
  | (Except.error e, s1) => (Except.error e, s1)
  | (Except.ok _, s1) =>
    let s2 := { s1 with job_applications :=
        s1.job_applications.filter (fun a => !(a.job_id == jobId)) }
    let deleted := s2.jobs.filter (fun j => j.id == jobId)
    let s3 := { s2 with jobs := s2.jobs.filter (fun j => !(j.id == jobId)) }
    (Except.ok deleted, s3)

/-- `deleteAllUserResumes`: list and remove every blob under the
`{userId}/` folder of the `resumes` bucket, then null the profile
`resume_url`. -/
def deleteAllUserResumes (s : Store) (env : Env) (userId : String) : Store :=
  let s1 := { s with storage := s.storage.filter (fun o =>
      !(o.bucket == "resumes" && o.folder == userId)) }
  { s1 with user_profiles := s1.user_profiles.map (fun p =>
      if p.id == userId then { p with resume_url := none, updated_at := env.now } else p) }

/-- The `.upsert(profileData, {onConflict: id})` of `uploadResume`:
replace the row with the same id, or insert it. -/
def upsertProfile (s : Store) (p : UserProfile) : Store :=
  if s.user_profiles.any (fun q => q.id == p.id) then
    { s with user_profiles := s.user_profiles.map (fun q => if q.id == p.id then p else q) }
  else
    { s with user_profiles := s.user_profiles ++ [p] }

/-- Name part of the storage key of a resume (the folder is the user
id): `resume_{timestamp}.{ext}` with `pdf` as fallback extension. -/
def resumeBlobName (env : Env) (file : DocFile) : String :=
  let ext := if getFileExtension file.name == "" then "pdf" else getFileExtension file.name
  "resume_" ++ toString env.now ++ "." ++ ext

/-- Successful result of `uploadResume`. -/
structure UploadResumeResult where
  url : String
  fileName : String
deriving Repr, DecidableEq

/-- `uploadResume`: session check, MIME allow-list, 5MB cap, purge of
all existing blobs of the user, blob upload, signed URL, profile upsert
with `resume_url`, `role = user` and fresh `created_at` / `updated_at`. -/
def uploadResume (s : Store) (env : Env) (file : DocFile) :
    Except String UploadResumeResult × Store :=
  match env.currentUser with
  | none => (Except.error "You must be logged in to upload a resume", s)
  | some uid =>
    if !(isValidDocumentType file) then
      (Except.error ("Invalid file type: ." ++ getFileExtension file.name ++
        ". Only PDF, DOC, and DOCX files are allowed"), s)
    else if 5 * 1024 * 1024 < file.size then
      (Except.error "File size must be less than 5MB", s)
    else
      let s1 := deleteAllUserResumes s env uid
      let name := resumeBlobName env file
      let s2 := { s1 with storage := s1.storage ++ [⟨"resumes", uid, name⟩] }
      let finalUrl := signedUrl "resumes" (uid ++ "/" ++ name)
      let s3 := upsertProfile s2
        { id := uid
          resume_url := some finalUrl
          role := "user"
          created_at := env.now
          updated_at := env.now }
      (Except.ok { url := finalUrl, fileName := file.name }, s3)

/-- `getRecommendedJobs`: active jobs only for an anonymous caller; for
an authenticated caller, sync the counts, read the active jobs, read
the user applications and filter out the applied job ids. -/
def getRecommendedJobs (s : Store) (env : Env) : List Job :=
  match env.currentUser with
  | none => s.jobs.filter (fun j => j.status == "active")
  | some uid =>
    let s1 := syncAllJobApplicationCounts s env
    let allActiveJobs := s1.jobs.filter (fun j => j.status == "active")
    let appliedJobIds :=
      (s1.job_applications.filter (fun a => a.user_id == uid)).map (fun a => a.job_id)
    allActiveJobs.filter (fun j => !(appliedJobIds.contains j.id))

/-- Outcome of the `handleApply` click handler of the job-details page. -/
inductive ApplyOutcome where
  | notLoggedIn
  | jobNotActive
  | applied (app : Application)
  | applyError (msg : String)
deriving Repr, DecidableEq

/-- `handleApply` (job-details page): reject without a session (or with
a falsy job id), reject when the fetched job record is absent or not
`active`, otherwise call `applyToJob` and surface its outcome. -/
def handleApply (s : Store) (env : Env) (job? : Option Job) (jobId : Nat) :
    ApplyOutcome × Store :=
  if env.currentUser == none || jobId == 0 then
    (ApplyOutcome.notLoggedIn, s)
  else if !(match job? with | some j => j.status == "active" | none => false) then
    (ApplyOutcome.jobNotActive, s)
  else
    match applyToJob s env jobId with
    | (Except.ok app, s1) => (ApplyOutcome.applied app, s1)
    | (Except.error msg, s1) => (ApplyOutcome.applyError msg, s1)

/-! Concrete fixtures used by witnesses and counterexamples. -/

/-- A user profile with an uploaded resume. -/
def exProfileResume : UserProfile :=
  { id := "u1", resume_url := some "https://r/u1.pdf", role := "user",
    created_at := 0, updated_at := 0 }

/-- An active job with id 2. -/
def exJobActive : Job :=
  { id := 2, title := "t", detailed_description := "d", criteria := "c", status := "active",
    applications_count := 0, company_name := "acme", salary_range := none,
    created_at := 0, updated_at := 0 }

/-- An inactive job with id 1. -/
def exJobInactive : Job := { exJobActive with id := 1, status := "inactive" }

/-- A non-admin session for user `u1` at time 7. -/
def exEnvU1 : Env := { currentUser := some "u1", isAdminRpc := false, now := 7 }

/-- Store with one active job and the `u1` profile. -/
def exStoreApply : Store :=
  { jobs := [exJobActive], job_applications := [], user_profiles := [exProfileResume],
    job_pdfs := [], storage := [] }

/-- Store with one inactive job and the `u1` profile. -/
def exStoreInactive : Store := { exStoreApply with jobs := [exJobInactive] }

/-- A second active job, with id 3. -/
def exJobActive3 : Job := { exJobActive with id := 3 }

/-- An anonymous session. -/
def envAnon : Env := { currentUser := none, isAdminRpc := false, now := 0 }

/-- Store with active jobs 2 and 3, inactive job 1, and an application
of `u1` on job 3. -/
def wStoreRec : Store :=
  { jobs := [exJobActive, exJobInactive, exJobActive3],
    job_applications := [mkApplication "u1" 3 5],
    user_profiles := [exProfileResume], job_pdfs := [], storage := [] }

/-- True when an optional application row has a positive `total_score`
(the condition the poll loop checks). -/
def scoreReady : Option Application → Bool
  | some a => decide (0 < a.total_score)
  | none => false

/-- An empty store. -/
def wEmptyStore : Store :=
  { jobs := [], job_applications := [], user_profiles := [], job_pdfs := [], storage := [] }

/-- An application row whose score has been written back. -/
def wScoredApp : Application :=
  { user_id := "u1", job_id := 1, applied_at := 0, status := "pending",
    total_score := 5, acceptance := "pending" }

/-- Store holding the scored application row. -/
def wScoredStore : Store := { wEmptyStore with job_applications := [wScoredApp] }

/-- Evolving store: empty at the first poll, scored afterwards. -/
def wStores : Nat → Store := fun k => if k = 0 then wEmptyStore else wScoredStore

/-- Concrete job-creation input. -/
def exJobData : JobData :=
  { title := "t", detailed_description := "d", criteria := "c",
    company_name := "acme", salary_range := none }

/-- A small valid PDF file. -/
def exDocPdf : DocFile := { name := "jd.pdf", type := "application/pdf", size := 100 }

/-- A `job_pdfs` row of job 1. -/
def wPdf : JobPdf :=
  { id := 9, job_id := 1, file_name := "jd.pdf",
    job_pdf_url := "https://storage.example/job-pdfs/job_1/jd.pdf",
    file_size := 10, created_at := 0, updated_at := 0 }

/-- Store with job 1, one application on it, and no documents. -/
def wStoreDel : Store :=
  { jobs := [exJobInactive], job_applications := [mkApplication "u1" 1 3],
    user_profiles := [exProfileResume], job_pdfs := [], storage := [] }

/-- The same store with one document on job 1. -/
def wStoreDelPdf : Store := { wStoreDel with job_pdfs := [wPdf] }

/-- The `u1` profile with role admin. -/
def wAdminProfile : UserProfile := { exProfileResume with role := "admin" }

/-- Store holding only the admin-role `u1` profile. -/
def wAdminStore : Store := { wEmptyStore with user_profiles := [wAdminProfile] }

/-- The `u1` session one tick later (time 8). -/
def exEnvU1b : Env := { exEnvU1 with now := 8 }

/-- The job row produced by `createNewJobWithPdf` when the inner document upload is rejected (non-admin caller). -/
def exFailedJob : Job :=
  { id := 1, title := "t",
    detailed_description := "Error uploading document: Only admins can upload job documents",
    criteria := "c", status := "inactive", applications_count := 0,
    company_name := "acme", salary_range := none, created_at := 7, updated_at := 7 }


/-! Helper lemmas. -/

lemma updateJobApplicationCount_job_applications (s : Store) (env : Env) (jobId : Nat) :
    (updateJobApplicationCount s env jobId).job_applications = s.job_applications := rfl

lemma updateJobApplicationCount_user_profiles (s : Store) (env : Env) (jobId : Nat) :
    (updateJobApplicationCount s env jobId).user_profiles = s.user_profiles := rfl

lemma getResumeUrl_profiles (s s' : Store) (env env' : Env) (u : String) (hne : u ≠ "")
    (hp : s'.user_profiles = s.user_profiles) :
    getResumeUrl s' env' (some u) = getResumeUrl s env (some u) := by
  have hb : (u == "") = false := by simp [hne]
  unfold getResumeUrl
  simp only [hb, Bool.false_eq_true, if_false, hp]

lemma applyToJob_ok_inv (s : Store) (env : Env) (jobId : Nat) (uid : String)
    (hu : env.currentUser = some uid) (app : Application) (s1 : Store)
    (h : applyToJob s env jobId = (Except.ok app, s1)) :
    app = mkApplication uid jobId env.now ∧
    s.job_applications.filter (fun a => a.user_id == uid && a.job_id == jobId) = [] ∧
    s1.job_applications = s.job_applications ++ [app] ∧
    s1.user_profiles = s.user_profiles ∧
    uid ≠ "" ∧
    ∃ r, getResumeUrl s env (some uid) = some r := by
  unfold applyToJob at h
  rw [hu] at h
  dsimp only at h
  cases hres : getResumeUrl s env (some uid) with
  | none => rw [hres] at h; simp at h
  | some r =>
    rw [hres] at h
    have hne : uid ≠ "" := by
      intro he
      subst he
      rw [show getResumeUrl s env (some "") = none by unfold getResumeUrl; rw [hu]; simp] at hres
      exact Option.noConfusion hres
    by_cases happ : hasUserApplied s env jobId
    · rw [if_pos happ] at h; simp at h
    · rw [if_neg happ] at h
      simp only [insertApplication, mkApplication] at h
      by_cases hany : (s.job_applications.any fun a =>
          a.user_id == uid && a.job_id == jobId) = true
      · simp only [hany, if_true] at h
        simp at h
      · simp only [Bool.not_eq_true] at hany
        simp only [hany, Bool.false_eq_true, if_false] at h
        have h1 := congrArg Prod.fst h
        have h2 := congrArg Prod.snd h
        simp only at h1 h2
        cases h1
        refine ⟨rfl, ?_, ?_, ?_, hne, ⟨r, rfl⟩⟩
        · exact List.filter_eq_nil_iff.mpr (by
            intro a ha
            have := List.any_eq_false.mp hany a ha
            simp_all)
        · rw [← h2]; rfl
        · rw [← h2]; rfl

lemma getResumeUrl_none_of_profiles (s : Store) (env : Env) (uid : String)
    (hu : env.currentUser = some uid)
    (hprof : ∀ p ∈ s.user_profiles, p.id = uid → p.resume_url = none) :
    getResumeUrl s env (some uid) = none := by
  unfold getResumeUrl
  by_cases hne : uid = ""
  · subst hne
    rw [hu]
    simp
  · have hb : (uid == "") = false := by simp [hne]
    simp only [hb, Bool.false_eq_true, if_false]
    cases hfil : s.user_profiles.filter (fun p => p.id == uid) with
    | nil => rfl
    | cons p rest =>
      cases rest with
      | nil =>
        have hpmem : p ∈ s.user_profiles.filter (fun p => p.id == uid) := by
          rw [hfil]; exact List.mem_singleton_self p
        obtain ⟨hpm, hpid⟩ := List.mem_filter.mp hpmem
        have hnone : p.resume_url = none := hprof p hpm (by simpa using hpid)
        simp [hnone]
      | cons q rest2 => rfl

/-! Claim theorems. -/

/-- C1: after a successful `applyToJob` by user U on job J, exactly one
`job_applications` row exists for (U, J), and a second `applyToJob` by U
on J fails with the duplicate-application error and leaves the store —
in particular the `job_applications` table — unchanged. -/
theorem applyToJob_unique_and_second_fails
    (s : Store) (env env2 : Env) (jobId : Nat) (uid : String)
    (hu : env.currentUser = some uid) (hu2 : env2.currentUser = some uid)
    (app : Application) (s1 : Store)
    (h : applyToJob s env jobId = (Except.ok app, s1)) :
    countApps s1 uid jobId = 1 ∧
    applyToJob s1 env2 jobId = (Except.error "You have already applied to this job", s1) := by
  obtain ⟨happ, hfilter, happs, hprof, hne, r, hres⟩ :=
    applyToJob_ok_inv s env jobId uid hu app s1 h
  have hfilter1 : s1.job_applications.filter
      (fun a => a.user_id == uid && a.job_id == jobId) = [app] := by
    rw [happs, List.filter_append, hfilter]
    simp [happ, mkApplication]
  constructor
  · unfold countApps
    rw [hfilter1]
    rfl
  · have hres1 : getResumeUrl s1 env2 (some uid) = some r := by
      rw [getResumeUrl_profiles s s1 env env2 uid hne hprof]
      exact hres
    have hdup : hasUserApplied s1 env2 jobId = true := by
      unfold hasUserApplied
      rw [hu2]
      dsimp only
      rw [hfilter1]
    unfold applyToJob
    rw [hu2]
    dsimp only
    rw [hres1]
    dsimp only
    rw [hdup]
    simp

/-- Witness for C1: a concrete first application by `u1` to job 2
succeeds, leaves one row, and a second identical call fails with the
duplicate message. -/
theorem applyToJob_unique_and_second_fails_witness :
    exEnvU1.currentUser = some "u1" ∧
    applyToJob exStoreApply exEnvU1 2 =
      (Except.ok (mkApplication "u1" 2 7), (applyToJob exStoreApply exEnvU1 2).2) ∧
    countApps (applyToJob exStoreApply exEnvU1 2).2 "u1" 2 = 1 ∧
    applyToJob (applyToJob exStoreApply exEnvU1 2).2 exEnvU1 2 =
      (Except.error "You have already applied to this job",
        (applyToJob exStoreApply exEnvU1 2).2) :=
  ⟨rfl, rfl,
    applyToJob_unique_and_second_fails exStoreApply exEnvU1 exEnvU1 2 "u1" rfl rfl
      (mkApplication "u1" 2 7) (applyToJob exStoreApply exEnvU1 2).2 rfl⟩

/-- C8: when the profile of the calling user carries no `resume_url`,
`applyToJob` fails with the resume-missing error and leaves the store
unchanged (no row inserted), with no assumption on any job status. -/
theorem applyToJob_fails_without_resume (s : Store) (env : Env) (jobId : Nat) (uid : String)
    (hu : env.currentUser = some uid)
    (hprof : ∀ p ∈ s.user_profiles, p.id = uid → p.resume_url = none) :
    applyToJob s env jobId =
      (Except.error "Please upload your resume before applying to jobs", s) := by
  have hres := getResumeUrl_none_of_profiles s env uid hu hprof
  unfold applyToJob
  rw [hu]
  dsimp only
  rw [hres]

/-- Witness for C8: the concrete user `u1` without a resume is rejected
with the resume-missing message on the store with an active job. -/
theorem applyToJob_fails_without_resume_witness :
    exEnvU1.currentUser = some "u1" ∧
    (∀ p ∈ (Store.mk [exJobActive] [] [{ exProfileResume with resume_url := none }] [] []).user_profiles,
        p.id = "u1" → p.resume_url = none) ∧
    applyToJob (Store.mk [exJobActive] [] [{ exProfileResume with resume_url := none }] [] []) exEnvU1 2 =
      (Except.error "Please upload your resume before applying to jobs",
        Store.mk [exJobActive] [] [{ exProfileResume with resume_url := none }] [] []) :=
  ⟨rfl, by decide,
    applyToJob_fails_without_resume _ exEnvU1 2 "u1" rfl (by decide)⟩

/-- Counterexample for C2 as stated: on a store whose only job (id 1) is
`inactive`, with a caller who has a resume and has not applied,
`applyToJob` succeeds — it performs no job-status check. -/
theorem applyToJob_ignores_job_status_cex :
    (∀ j ∈ exStoreInactive.jobs, j.status ≠ "active") ∧
    getResumeUrl exStoreInactive exEnvU1 (some "u1") ≠ none ∧
    hasUserApplied exStoreInactive exEnvU1 1 = false ∧
    (applyToJob exStoreInactive exEnvU1 1).1 = Except.ok (mkApplication "u1" 1 7) := by
  exact ⟨by decide, by decide, rfl, rfl⟩

/-- C2 (amended): the active-status guard of the apply operation lives in
the page handler `handleApply`, not in `applyToJob`: for a logged-in
caller with a truthy job id, when the fetched job record is absent or
its status is not `active`, `handleApply` rejects with the inactive-job
outcome and leaves the store unchanged, never calling into the insert. -/
theorem handleApply_rejects_inactive_job (s : Store) (env : Env) (job? : Option Job)
    (jobId : Nat) (uid : String) (hu : env.currentUser = some uid) (hj : jobId ≠ 0)
    (hstatus : ∀ j, job? = some j → j.status ≠ "active") :
    handleApply s env job? jobId = (ApplyOutcome.jobNotActive, s) := by
  unfold handleApply
  have h1 : (env.currentUser == none || jobId == 0) = false := by
    rw [hu]; simp [hj]
  rw [h1]
  simp only [Bool.false_eq_true, if_false]
  cases job? with
  | none => simp
  | some j =>
    have hs := hstatus j rfl
    simp [hs]

/-- Witness for the amended C2: `handleApply` on the concrete inactive
job rejects with the inactive-job outcome. -/
theorem handleApply_rejects_inactive_job_witness :
    exEnvU1.currentUser = some "u1" ∧ (1 : Nat) ≠ 0 ∧
    (∀ j, some exJobInactive = some j → j.status ≠ "active") ∧
    handleApply exStoreInactive exEnvU1 (some exJobInactive) 1 =
      (ApplyOutcome.jobNotActive, exStoreInactive) :=
  ⟨rfl, by decide, by intro j hj; cases hj; decide,
    handleApply_rejects_inactive_job exStoreInactive exEnvU1 (some exJobInactive) 1 "u1"
      rfl (by decide) (by intro j hj; cases hj; decide)⟩

/-- C3 (amended): only the job-document operations re-check the admin
role: `uploadJobPdf` and `deleteJobPdf` fail for a non-admin caller and
leave the store unchanged, while `updateJobStatus` and `deleteJob`
perform their writes and succeed without any session or role check —
here under a non-admin session. -/
theorem admin_check_only_on_documents (s : Store) (env : Env) (uid : String)
    (file : DocFile) (jobId pdfId : Nat) (st : String)
    (hu : env.currentUser = some uid) (hna : checkIfUserIsAdmin env = false) :
    uploadJobPdf s env file jobId = (Except.error "Only admins can upload job documents", s) ∧
    deleteJobPdf s env pdfId = (Except.error "Only admins can delete job PDFs", s) ∧
    (∃ l, (updateJobStatus s env jobId st).1 = Except.ok l) ∧
    (∀ j ∈ (updateJobStatus s env jobId st).2.jobs, j.id = jobId → j.status = st) ∧
    (∃ l, (deleteJob s env jobId).1 = Except.ok l) ∧
    (∀ j ∈ (deleteJob s env jobId).2.jobs, j.id ≠ jobId) := by
  refine ⟨?_, ?_, ⟨_, rfl⟩, ?_, ⟨_, rfl⟩, ?_⟩
  · unfold uploadJobPdf
    rw [hu]
    dsimp only
    rw [hna]
    simp
  · unfold deleteJobPdf
    rw [hu]
    dsimp only
    rw [hna]
    simp
  · intro j hj hid
    simp only [updateJobStatus, updateJobApplicationCount, List.map_map, List.mem_map,
      Function.comp] at hj
    obtain ⟨b, hbmem, hbeq⟩ := hj
    by_cases hb : b.id = jobId
    · subst hbeq
      simp [hb]
    · subst hbeq
      simp only [beq_iff_eq, if_neg hb] at hid
      exact absurd hid hb
  · intro j hj
    simp only [deleteJob, List.mem_filter] at hj
    have := hj.2
    simp at this
    exact this

/-- Counterexample for C3 as stated: the non-admin session `u1`
successfully activates job 1 through `updateJobStatus`; the operation
does not fail for a non-admin caller. -/
theorem updateJobStatus_no_admin_check_cex :
    checkIfUserIsAdmin exEnvU1 = false ∧
    (updateJobStatus exStoreInactive exEnvU1 1 "active").1 =
      Except.ok [{ exJobInactive with status := "active", updated_at := 7 }] ∧
    (updateJobStatus exStoreInactive exEnvU1 1 "active").2.jobs =
      [{ exJobInactive with status := "active", updated_at := 7 }] := by
  exact ⟨rfl, rfl, rfl⟩

/-- Witness for the amended C3 at concrete inputs. -/
theorem admin_check_only_on_documents_witness :
    exEnvU1.currentUser = some "u1" ∧ checkIfUserIsAdmin exEnvU1 = false ∧
    (uploadJobPdf exStoreInactive exEnvU1 (DocFile.mk "a.pdf" "application/pdf" 10) 1 =
      (Except.error "Only admins can upload job documents", exStoreInactive) ∧
     deleteJobPdf exStoreInactive exEnvU1 1 =
      (Except.error "Only admins can delete job PDFs", exStoreInactive) ∧
     (∃ l, (updateJobStatus exStoreInactive exEnvU1 1 "active").1 = Except.ok l) ∧
     (∀ j ∈ (updateJobStatus exStoreInactive exEnvU1 1 "active").2.jobs,
        j.id = 1 → j.status = "active") ∧
     (∃ l, (deleteJob exStoreInactive exEnvU1 1).1 = Except.ok l) ∧
     (∀ j ∈ (deleteJob exStoreInactive exEnvU1 1).2.jobs, j.id ≠ 1)) :=
  ⟨rfl, rfl,
    admin_check_only_on_documents exStoreInactive exEnvU1 "u1"
      (DocFile.mk "a.pdf" "application/pdf" 10) 1 1 "active" rfl rfl⟩
lemma foldl_updateCount_job_applications (env : Env) (l : List Nat) :
    ∀ s : Store, (List.foldl (fun acc jid => updateJobApplicationCount acc env jid) s l).job_applications
      = s.job_applications := by
  induction l with
  | nil => intro s; rfl
  | cons x xs ih =>
    intro s
    rw [List.foldl_cons, ih, updateJobApplicationCount_job_applications]

lemma syncAll_job_applications (s : Store) (env : Env) :
    (syncAllJobApplicationCounts s env).job_applications = s.job_applications := by
  unfold syncAllJobApplicationCounts
  exact foldl_updateCount_job_applications env _ s

/-- C4: for an authenticated user, `getRecommendedJobs` contains only
jobs whose status is `active` and never a job the user has an
application row for; for an anonymous caller its members are exactly
the active jobs of the store. -/
theorem getRecommendedJobs_active_and_unapplied (s : Store) (env : Env) :
    (∀ uid, env.currentUser = some uid →
      ∀ j ∈ getRecommendedJobs s env,
        j.status = "active" ∧
        ∀ a ∈ s.job_applications, a.user_id = uid → a.job_id ≠ j.id) ∧
    (env.currentUser = none →
      ∀ j, j ∈ getRecommendedJobs s env ↔ (j ∈ s.jobs ∧ j.status = "active")) := by
  constructor
  · intro uid hu j hj
    unfold getRecommendedJobs at hj
    rw [hu] at hj
    dsimp only at hj
    obtain ⟨hj1, hj2⟩ := List.mem_filter.mp hj
    obtain ⟨hj3, hj4⟩ := List.mem_filter.mp hj1
    refine ⟨by simpa using hj4, ?_⟩
    intro a ha hauser heq
    have ha' : a ∈ (syncAllJobApplicationCounts s env).job_applications := by
      rw [syncAll_job_applications]; exact ha
    have hin : j.id ∈ ((syncAllJobApplicationCounts s env).job_applications.filter
        (fun a => a.user_id == uid)).map (fun a => a.job_id) :=
      List.mem_map.mpr ⟨a, List.mem_filter.mpr ⟨ha', by simp [hauser]⟩, heq⟩
    simp only [Bool.not_eq_eq_eq_not, Bool.not_true] at hj2
    rw [List.contains_eq_any_beq] at hj2
    have hany : (((syncAllJobApplicationCounts s env).job_applications.filter
        (fun a => a.user_id == uid)).map (fun a => a.job_id)).any (fun x => j.id == x) = true :=
      List.any_eq_true.mpr ⟨j.id, hin, by simp⟩
    rw [hany] at hj2
    exact Bool.noConfusion hj2
  · intro hnone j
    unfold getRecommendedJobs
    rw [hnone]
    simp [List.mem_filter]

/-- Witness for C4 at a concrete three-job store. -/
theorem getRecommendedJobs_witness :
    exEnvU1.currentUser = some "u1" ∧
    { exJobActive with updated_at := 7 } ∈ getRecommendedJobs wStoreRec exEnvU1 ∧
    ({ exJobActive with updated_at := 7 }.status = "active" ∧
      ∀ a ∈ wStoreRec.job_applications, a.user_id = "u1" →
        a.job_id ≠ { exJobActive with updated_at := 7 }.id) ∧
    (∀ j, j ∈ getRecommendedJobs wStoreRec envAnon ↔ (j ∈ wStoreRec.jobs ∧ j.status = "active")) :=
  ⟨rfl, by decide,
    (getRecommendedJobs_active_and_unapplied wStoreRec exEnvU1).1 "u1" rfl
      { exJobActive with updated_at := 7 } (by decide),
    (getRecommendedJobs_active_and_unapplied wStoreRec envAnon).2 rfl⟩

lemma waitLoop_none (reads : Nat → Option Application) (maxWaitTime : Nat)
    (hnone : ∀ j, 5000 * j < maxWaitTime → scoreReady (reads j) = false) :
    ∀ fuel k, waitLoop reads maxWaitTime k fuel = none := by
  intro fuel
  induction fuel with
  | zero => intro k; rfl
  | succ n ih =>
    intro k
    unfold waitLoop
    by_cases hk : 5000 * k < maxWaitTime
    · rw [if_pos hk]
      cases hr : reads k with
      | none => exact ih (k + 1)
      | some app =>
        have hs := hnone k hk
        rw [hr] at hs
        simp only [scoreReady] at hs
        have hns : ¬(0 < app.total_score) := by simpa using hs
        dsimp only
        rw [if_neg hns]
        exact ih (k + 1)
    · rw [if_neg hk]

lemma waitLoop_finds (reads : Nat → Option Application) (maxWaitTime k : Nat)
    (app : Application) (hk : 5000 * k < maxWaitTime)
    (hread : reads k = some app) (hpos : 0 < app.total_score)
    (hbefore : ∀ j, j < k → scoreReady (reads j) = false) :
    ∀ fuel k0, k0 ≤ k → k - k0 < fuel →
      waitLoop reads maxWaitTime k0 fuel = some app := by
  intro fuel
  induction fuel with
  | zero => intro k0 h1 h2; omega
  | succ n ih =>
    intro k0 hle hlt
    unfold waitLoop
    rcases Nat.eq_or_lt_of_le hle with heq | hlt2
    · subst heq
      simp only [hread]
      rw [if_pos hk, if_pos hpos]
    · have hk0 : 5000 * k0 < maxWaitTime := by
        have hmul : 5000 * k0 ≤ 5000 * k := Nat.mul_le_mul_left _ (le_of_lt hlt2)
        omega
      rw [if_pos hk0]
      have hrd := hbefore k0 hlt2
      cases hr : reads k0 with
      | none => exact ih (k0 + 1) hlt2 (by omega)
      | some a =>
        rw [hr] at hrd
        simp only [scoreReady] at hrd
        have hns : ¬(0 < a.total_score) := by simpa using hrd
        dsimp only
        rw [if_neg hns]
        exact ih (k0 + 1) hlt2 (by omega)

/-- C5: the poll loop re-reads the application row every 5 seconds
(poll k happens at 5000·k ms) and returns the row at the first poll
inside the window whose `total_score` is positive; when no poll inside
`maxWaitTime` ever sees a positive score it returns null instead of
throwing. -/
theorem waitForScoreProcessing_poll_spec (stores : Nat → Store) (userId : String)
    (jobId : Nat) (maxWaitTime k : Nat) (app : Application) :
    ((∀ j, 5000 * j < maxWaitTime →
        scoreReady (getApplicationStatus (stores j) userId jobId) = false) →
      waitForScoreProcessingOn stores userId jobId maxWaitTime = none) ∧
    (5000 * k < maxWaitTime →
      getApplicationStatus (stores k) userId jobId = some app →
      0 < app.total_score →
      (∀ j, j < k → scoreReady (getApplicationStatus (stores j) userId jobId) = false) →
      waitForScoreProcessingOn stores userId jobId maxWaitTime = some app) := by
  constructor
  · intro hnone
    unfold waitForScoreProcessingOn waitForScoreProcessing
    exact waitLoop_none _ maxWaitTime hnone maxWaitTime 0
  · intro hk hread hpos hbefore
    unfold waitForScoreProcessingOn waitForScoreProcessing
    exact waitLoop_finds _ maxWaitTime k app hk hread hpos hbefore maxWaitTime 0
      (Nat.zero_le k) (by omega)

/-- Witness for C5: the score appears at the second poll and is returned; a store that never scores yields none. -/
theorem waitForScoreProcessing_poll_witness :
    (5000 * 1 < 300000 ∧
      getApplicationStatus (wStores 1) "u1" 1 = some wScoredApp ∧
      (0 : Int) < wScoredApp.total_score ∧
      waitForScoreProcessingOn wStores "u1" 1 300000 = some wScoredApp) ∧
    waitForScoreProcessingOn (fun _ => wEmptyStore) "u1" 1 300000 = none := by
  constructor
  · refine ⟨by decide, rfl, by decide, ?_⟩
    exact (waitForScoreProcessing_poll_spec wStores "u1" 1 300000 1 wScoredApp).2
      (by decide) rfl (by decide)
      (fun j hj => by interval_cases j; rfl)
  · exact (waitForScoreProcessing_poll_spec (fun _ => wEmptyStore) "u1" 1 300000 0 wScoredApp).1
      (fun j _ => rfl)

lemma uploadJobPdf_jobs (s : Store) (env : Env) (file : DocFile) (jobId : Nat) :
    (uploadJobPdf s env file jobId).2.jobs = s.jobs := by
  unfold uploadJobPdf
  cases env.currentUser with
  | none => rfl
  | some u =>
    dsimp only
    by_cases h1 : checkIfUserIsAdmin env
    · simp only [h1, Bool.not_true, Bool.false_eq_true, if_false]
      by_cases h2 : isValidDocumentType file
      · simp only [h2, Bool.not_true, Bool.false_eq_true, if_false]
        by_cases h3 : 10 * 1024 * 1024 < file.size
        · rw [if_pos h3]
        · rw [if_neg h3]
      · simp only [h2, Bool.not_false, if_true]
    · simp only [h1, Bool.not_false, if_true]

/-- C6: whatever the document-upload outcome, the job row created by
`createNewJobWithPdf` has status `inactive` in the final store — never
`processing` — and when the upload threw, the error message is recorded
in the detailed description of that row. -/
theorem createNewJobWithPdf_ends_inactive (s : Store) (env : Env) (jd : JobData)
    (file? : Option DocFile) :
    (∀ j ∈ (createNewJobWithPdf s env jd file?).2.jobs,
        j.id = freshJobId s → j.status = "inactive") ∧
    (∀ file msg, file? = some file →
      (uploadJobPdf (insertProcessingJob s env jd).2 env file (freshJobId s)).1 =
        Except.error msg →
      ∀ j ∈ (createNewJobWithPdf s env jd file?).2.jobs,
        j.id = freshJobId s →
        j.detailed_description = "Error uploading document: " ++ msg) := by
  cases file? with
  | none =>
    constructor
    · intro j hj hid
      simp only [createNewJobWithPdf, insertProcessingJob, setJobStatusInactive,
        List.mem_map] at hj
      obtain ⟨b, hbmem, hbeq⟩ := hj
      subst hbeq
      by_cases hb : b.id = freshJobId s
      · simp [hb]
      · simp only [beq_iff_eq, if_neg hb] at hid ⊢
        exact absurd hid hb
    · intro file msg hfile
      exact absurd hfile (by simp)
  | some f =>
    cases hup : uploadJobPdf (insertProcessingJob s env jd).2 env f (freshJobId s) with
    | mk res s2 =>
      have hjobs : s2.jobs = (insertProcessingJob s env jd).2.jobs := by
        have := uploadJobPdf_jobs (insertProcessingJob s env jd).2 env f (freshJobId s)
        rw [hup] at this
        exact this
      cases res with
      | ok docResult =>
        constructor
        · intro j hj hid
          simp only [createNewJobWithPdf] at hj
          rw [show (insertProcessingJob s env jd).1.id = freshJobId s from rfl] at hj
          rw [hup] at hj
          simp only [setJobStatusInactive, List.mem_map] at hj
          obtain ⟨b, hbmem, hbeq⟩ := hj
          subst hbeq
          by_cases hb : b.id = freshJobId s
          · simp [hb]
          · simp only [beq_iff_eq, if_neg hb] at hid ⊢
            exact absurd hid hb
        · intro file msg hfile herr
          cases hfile
          rw [hup] at herr
          exact absurd herr (by simp)
      | error msg0 =>
        constructor
        · intro j hj hid
          simp only [createNewJobWithPdf] at hj
          rw [show (insertProcessingJob s env jd).1.id = freshJobId s from rfl] at hj
          rw [hup] at hj
          simp only [recordUploadFailure, List.mem_map] at hj
          obtain ⟨b, hbmem, hbeq⟩ := hj
          subst hbeq
          by_cases hb : b.id = freshJobId s
          · simp [hb]
          · simp only [beq_iff_eq, if_neg hb] at hid ⊢
            exact absurd hid hb
        · intro file msg hfile herr
          cases hfile
          rw [hup] at herr
          have hmsg : msg0 = msg := by
            simpa using herr
          subst hmsg
          intro j hj hid
          simp only [createNewJobWithPdf] at hj
          rw [show (insertProcessingJob s env jd).1.id = freshJobId s from rfl] at hj
          rw [hup] at hj
          simp only [recordUploadFailure, List.mem_map] at hj
          obtain ⟨b, hbmem, hbeq⟩ := hj
          subst hbeq
          by_cases hb : b.id = freshJobId s
          · simp [hb]
          · simp only [beq_iff_eq, if_neg hb] at hid ⊢
            exact absurd hid hb

/-- Witness for C6: a rejected upload still ends with the concrete job row inactive, the error text recorded. -/
theorem createNewJobWithPdf_ends_inactive_witness :
    exFailedJob ∈ (createNewJobWithPdf wEmptyStore exEnvU1 exJobData (some exDocPdf)).2.jobs ∧
    exFailedJob.id = freshJobId wEmptyStore ∧
    (uploadJobPdf (insertProcessingJob wEmptyStore exEnvU1 exJobData).2 exEnvU1 exDocPdf
        (freshJobId wEmptyStore)).1 =
      Except.error "Only admins can upload job documents" ∧
    exFailedJob.status = "inactive" ∧
    exFailedJob.detailed_description =
      "Error uploading document: " ++ "Only admins can upload job documents" :=
  ⟨by decide, by decide, rfl,
    (createNewJobWithPdf_ends_inactive wEmptyStore exEnvU1 exJobData (some exDocPdf)).1
      exFailedJob (by decide) (by decide),
    (createNewJobWithPdf_ends_inactive wEmptyStore exEnvU1 exJobData (some exDocPdf)).2
      exDocPdf "Only admins can upload job documents" rfl rfl
      exFailedJob (by decide) (by decide)⟩

lemma uploadResume_ok_inv (s : Store) (env : Env) (file : DocFile) (uid : String)
    (hu : env.currentUser = some uid) (r : UploadResumeResult) (s1 : Store)
    (h : uploadResume s env file = (Except.ok r, s1)) :
    s1 = upsertProfile
      { deleteAllUserResumes s env uid with storage :=
          (deleteAllUserResumes s env uid).storage ++
            [⟨"resumes", uid, resumeBlobName env file⟩] }
      { id := uid, resume_url := some r.url, role := "user",
        created_at := env.now, updated_at := env.now } ∧
    r.url = signedUrl "resumes" (uid ++ "/" ++ resumeBlobName env file) := by
  unfold uploadResume at h
  rw [hu] at h
  dsimp only at h
  cases hv : isValidDocumentType file with
  | false =>
    rw [hv] at h
    simp at h
  | true =>
    rw [hv] at h
    simp only [Bool.not_true, Bool.false_eq_true, if_false] at h
    by_cases hs : 5 * 1024 * 1024 < file.size
    · rw [if_pos hs] at h
      simp at h
    · rw [if_neg hs] at h
      have h1 := congrArg Prod.fst h
      have h2 := congrArg Prod.snd h
      simp only at h1 h2
      injection h1 with h1'
      subst h1'
      exact ⟨h2.symm, rfl⟩

lemma upsertProfile_storage (s : Store) (p : UserProfile) :
    (upsertProfile s p).storage = s.storage := by
  unfold upsertProfile
  split
  · rfl
  · rfl

lemma upsertProfile_spec (s : Store) (p : UserProfile) :
    (∃ q ∈ (upsertProfile s p).user_profiles, q.id = p.id) ∧
    (∀ q ∈ (upsertProfile s p).user_profiles, q.id = p.id → q = p) := by
  unfold upsertProfile
  by_cases hany : (s.user_profiles.any fun q => q.id == p.id) = true
  · rw [if_pos hany]
    constructor
    · obtain ⟨q, hq, hqid⟩ := List.any_eq_true.mp hany
      refine ⟨p, ?_, rfl⟩
      dsimp only
      refine List.mem_map.mpr ⟨q, hq, ?_⟩
      simp [hqid]
    · intro q hq hqid
      dsimp only at hq
      obtain ⟨b, hb, hbeq⟩ := List.mem_map.mp hq
      by_cases hbid : b.id == p.id
      · rw [if_pos hbid] at hbeq
        exact hbeq.symm
      · rw [if_neg hbid] at hbeq
        subst hbeq
        exact absurd (by simp [hqid]) hbid
  · rw [if_neg hany]
    constructor
    · exact ⟨p, by simp, rfl⟩
    · intro q hq hqid
      dsimp only at hq
      rcases List.mem_append.mp hq with hql | hqr
      · have hany' : (s.user_profiles.any fun b => b.id == p.id) = false := by
          simpa using hany
        have hq' := List.any_eq_false.mp hany' q hql
        simp only [beq_iff_eq] at hq'
        exact absurd hqid hq'
      · simpa using hqr

/-- C7: `uploadResume` purges every blob in the callers folder of the
`resumes` bucket before storing the new one; after two successive
successful uploads exactly one blob is live in that folder and the
profile `resume_url` points at the URL returned by the second upload. -/
theorem uploadResume_twice_single_blob (s : Store) (env1 env2 : Env) (f1 f2 : DocFile)
    (uid : String) (_hu1 : env1.currentUser = some uid) (hu2 : env2.currentUser = some uid)
    (r1 r2 : UploadResumeResult) (s1 s2 : Store)
    (_h1 : uploadResume s env1 f1 = (Except.ok r1, s1))
    (h2 : uploadResume s1 env2 f2 = (Except.ok r2, s2)) :
    (s2.storage.filter (fun o => o.bucket == "resumes" && o.folder == uid)).length = 1 ∧
    (∃ p ∈ s2.user_profiles, p.id = uid) ∧
    (∀ p ∈ s2.user_profiles, p.id = uid → p.resume_url = some r2.url) := by
  obtain ⟨hs2, hurl⟩ := uploadResume_ok_inv s1 env2 f2 uid hu2 r2 s2 h2
  constructor
  · rw [hs2, upsertProfile_storage]
    dsimp only
    rw [show (deleteAllUserResumes s1 env2 uid).storage =
        s1.storage.filter (fun o => !(o.bucket == "resumes" && o.folder == uid)) from rfl]
    rw [List.filter_append]
    have hnil : (s1.storage.filter (fun o => !(o.bucket == "resumes" && o.folder == uid))).filter
        (fun o => o.bucket == "resumes" && o.folder == uid) = [] := by
      refine List.filter_eq_nil_iff.mpr ?_
      intro o ho
      obtain ⟨hom, hop⟩ := List.mem_filter.mp ho
      simp only [Bool.not_eq_eq_eq_not, Bool.not_true] at hop
      simp [hop]
    rw [hnil]
    simp
  · have hspec := upsertProfile_spec
      { deleteAllUserResumes s1 env2 uid with storage :=
          (deleteAllUserResumes s1 env2 uid).storage ++
            [⟨"resumes", uid, resumeBlobName env2 f2⟩] }
      { id := uid, resume_url := some r2.url, role := "user",
        created_at := env2.now, updated_at := env2.now }
    rw [← hs2] at hspec
    obtain ⟨⟨q, hq, hqid⟩, huniq⟩ := hspec
    refine ⟨⟨q, hq, hqid⟩, ?_⟩
    intro p hp hpid
    have := huniq p hp hpid
    rw [this]

/-- C10: a successful `uploadResume` upserts the whole profile row:
besides `resume_url`, the `role` field is set to `user` and
`created_at` to the current time — so a previously admin profile is
`user` afterwards. -/
theorem uploadResume_resets_role_and_created_at (s : Store) (env : Env) (file : DocFile)
    (uid : String) (hu : env.currentUser = some uid)
    (r : UploadResumeResult) (s1 : Store)
    (h : uploadResume s env file = (Except.ok r, s1)) :
    (∃ p ∈ s1.user_profiles, p.id = uid) ∧
    ∀ p ∈ s1.user_profiles, p.id = uid →
      p.role = "user" ∧ p.created_at = env.now ∧ p.resume_url = some r.url := by
  obtain ⟨hs1, hurl⟩ := uploadResume_ok_inv s env file uid hu r s1 h
  have hspec := upsertProfile_spec
    { deleteAllUserResumes s env uid with storage :=
        (deleteAllUserResumes s env uid).storage ++
          [⟨"resumes", uid, resumeBlobName env file⟩] }
    { id := uid, resume_url := some r.url, role := "user",
      created_at := env.now, updated_at := env.now }
  rw [← hs1] at hspec
  obtain ⟨hex, huniq⟩ := hspec
  refine ⟨hex, ?_⟩
  intro p hp hpid
  rw [huniq p hp hpid]
  exact ⟨rfl, rfl, rfl⟩

/-- Witness for C7: two concrete uploads at times 7 and 8. -/
theorem uploadResume_twice_witness :
    exEnvU1.currentUser = some "u1" ∧ exEnvU1b.currentUser = some "u1" ∧
    uploadResume wEmptyStore exEnvU1 exDocPdf =
      (Except.ok (UploadResumeResult.mk "https://storage.example/resumes/u1/resume_7.pdf" "jd.pdf"),
        (uploadResume wEmptyStore exEnvU1 exDocPdf).2) ∧
    uploadResume (uploadResume wEmptyStore exEnvU1 exDocPdf).2 exEnvU1b exDocPdf =
      (Except.ok (UploadResumeResult.mk "https://storage.example/resumes/u1/resume_8.pdf" "jd.pdf"),
        (uploadResume (uploadResume wEmptyStore exEnvU1 exDocPdf).2 exEnvU1b exDocPdf).2) ∧
    (((uploadResume (uploadResume wEmptyStore exEnvU1 exDocPdf).2 exEnvU1b exDocPdf).2.storage.filter
        (fun o => o.bucket == "resumes" && o.folder == "u1")).length = 1 ∧
     (∃ p ∈ (uploadResume (uploadResume wEmptyStore exEnvU1 exDocPdf).2 exEnvU1b exDocPdf).2.user_profiles,
        p.id = "u1") ∧
     (∀ p ∈ (uploadResume (uploadResume wEmptyStore exEnvU1 exDocPdf).2 exEnvU1b exDocPdf).2.user_profiles,
        p.id = "u1" →
        p.resume_url = some (UploadResumeResult.mk
          "https://storage.example/resumes/u1/resume_8.pdf" "jd.pdf").url)) :=
  ⟨rfl, rfl, by rfl, by rfl,
    uploadResume_twice_single_blob wEmptyStore exEnvU1 exEnvU1b exDocPdf exDocPdf "u1"
      rfl rfl
      (UploadResumeResult.mk "https://storage.example/resumes/u1/resume_7.pdf" "jd.pdf")
      (UploadResumeResult.mk "https://storage.example/resumes/u1/resume_8.pdf" "jd.pdf")
      (uploadResume wEmptyStore exEnvU1 exDocPdf).2
      (uploadResume (uploadResume wEmptyStore exEnvU1 exDocPdf).2 exEnvU1b exDocPdf).2
      (by rfl) (by rfl)⟩

/-- Witness for C10: an admin profile becomes role user after a concrete upload. -/
theorem uploadResume_resets_role_witness :
    exEnvU1.currentUser = some "u1" ∧
    wAdminProfile.role = "admin" ∧
    uploadResume wAdminStore exEnvU1 exDocPdf =
      (Except.ok (UploadResumeResult.mk "https://storage.example/resumes/u1/resume_7.pdf" "jd.pdf"),
        (uploadResume wAdminStore exEnvU1 exDocPdf).2) ∧
    (∃ p ∈ (uploadResume wAdminStore exEnvU1 exDocPdf).2.user_profiles, p.id = "u1") ∧
    (∀ p ∈ (uploadResume wAdminStore exEnvU1 exDocPdf).2.user_profiles, p.id = "u1" →
      p.role = "user" ∧ p.created_at = exEnvU1.now ∧
      p.resume_url = some (UploadResumeResult.mk
        "https://storage.example/resumes/u1/resume_7.pdf" "jd.pdf").url) :=
  ⟨rfl, rfl, by rfl,
    uploadResume_resets_role_and_created_at wAdminStore exEnvU1 exDocPdf "u1" rfl
      (UploadResumeResult.mk "https://storage.example/resumes/u1/resume_7.pdf" "jd.pdf")
      (uploadResume wAdminStore exEnvU1 exDocPdf).2 (by rfl)⟩

/-- C9: `deleteJobWithPdfs` checks authentication and the admin role
only inside the per-document `deleteJobPdf` calls: with zero documents
it deletes the applications of the job and the job row for any caller,
even unauthenticated, raising no error; with at least one document an
unauthenticated caller gets the login error and an unchanged store. -/
theorem deleteJobWithPdfs_auth_only_in_pdf_deletes (s : Store) (env : Env) (jobId : Nat) :
    (getJobPdfs s jobId = [] →
      (∃ l, (deleteJobWithPdfs s env jobId).1 = Except.ok l) ∧
      (∀ a ∈ (deleteJobWithPdfs s env jobId).2.job_applications, a.job_id ≠ jobId) ∧
      (∀ j ∈ (deleteJobWithPdfs s env jobId).2.jobs, j.id ≠ jobId)) ∧
    (env.currentUser = none → ∀ p ps, getJobPdfs s jobId = p :: ps →
      deleteJobWithPdfs s env jobId =
        (Except.error "You must be logged in to delete job PDFs", s)) := by
  constructor
  · intro hempty
    unfold deleteJobWithPdfs
    rw [hempty]
    simp only [List.map_nil]
    rw [show deletePdfList env s [] = (Except.ok (), s) from rfl]
    dsimp only
    refine ⟨⟨_, rfl⟩, ?_, ?_⟩
    · intro a ha
      obtain ⟨ham, hap⟩ := List.mem_filter.mp ha
      simpa using hap
    · intro j hj
      obtain ⟨hjm, hjp⟩ := List.mem_filter.mp hj
      simpa using hjp
  · intro hnone p ps hpdfs
    unfold deleteJobWithPdfs
    rw [hpdfs]
    simp only [List.map_cons]
    rw [show deletePdfList env s (p.id :: ps.map (fun q => q.id)) =
        (match deleteJobPdf s env p.id with
         | (Except.error e, s1) => (Except.error e, s1)
         | (Except.ok _, s1) => deletePdfList env s1 (ps.map (fun q => q.id))) from rfl]
    rw [show deleteJobPdf s env p.id =
        (Except.error "You must be logged in to delete job PDFs", s) by
      unfold deleteJobPdf; rw [hnone]]

/-- Witness for C9: an anonymous caller deletes a document-free job, but is rejected once the job has a document. -/
theorem deleteJobWithPdfs_auth_witness :
    (getJobPdfs wStoreDel 1 = [] ∧ envAnon.currentUser = none ∧
      (∃ l, (deleteJobWithPdfs wStoreDel envAnon 1).1 = Except.ok l) ∧
      (∀ a ∈ (deleteJobWithPdfs wStoreDel envAnon 1).2.job_applications, a.job_id ≠ 1) ∧
      (∀ j ∈ (deleteJobWithPdfs wStoreDel envAnon 1).2.jobs, j.id ≠ 1)) ∧
    (getJobPdfs wStoreDelPdf 1 = [wPdf] ∧
      deleteJobWithPdfs wStoreDelPdf envAnon 1 =
        (Except.error "You must be logged in to delete job PDFs", wStoreDelPdf)) :=
  ⟨⟨rfl, rfl, (deleteJobWithPdfs_auth_only_in_pdf_deletes wStoreDel envAnon 1).1 rfl⟩,
    ⟨rfl, (deleteJobWithPdfs_auth_only_in_pdf_deletes wStoreDelPdf envAnon 1).2 rfl wPdf [] rfl⟩⟩

end JobPlatform
